import Mathlib

/-
Shallow embedding of the asionet networking library (Badenhoop/remote_control,
src/vendor/asionet).  Each definition is translated from the C++ source file
named in its doc comment.  Theorems at the end of the file settle the claims
about the library.
-/

set_option maxRecDepth 4096

namespace asionet

namespace error

/-- Embeds `asionet::error::Error` (Error.h).  `asionetCode` is the `ErrorCode`
(an `int`); `boostCode` models the value of the attached
`boost::system::error_code` (its `operator bool` is value-is-nonzero, value 0
meaning "no error"). -/
structure Error where
  asionetCode : Int
  boostCode : Int
deriving DecidableEq, Repr

/-- Embeds `operator==(const Error &, const Error &)` (Error.h line 49):
compares only the `asionetCode` fields. -/
def Error.beq (lhs rhs : Error) : Bool :=
  lhs.asionetCode == rhs.asionetCode

/-- Embeds `operator!=(const Error &, const Error &)` (Error.h line 52). -/
def Error.bne (lhs rhs : Error) : Bool :=
  !(Error.beq lhs rhs)

/-- Embeds `explicit operator bool()` (Error.h line 46): an `Error` is truthy
iff its `asionetCode` is nonzero. -/
def Error.toBool (e : Error) : Bool :=
  e.asionetCode != 0

namespace codes

/-- `codes::success` (Error.h). -/
def success : Int := 0
/-- `codes::failedOperation` (Error.h). -/
def failedOperation : Int := 1
/-- `codes::aborted` (Error.h). -/
def aborted : Int := 2
/-- `codes::encoding` (Error.h). -/
def encoding : Int := 3
/-- `codes::decoding` (Error.h). -/
def decoding : Int := 4
/-- `codes::invalidFrame` (Error.h). -/
def invalidFrame : Int := 5

end codes

/-- The constant `error::success` (Error.h): brace-init of `Error` with only
the code leaves `boostCode` default-constructed (value 0). -/
def success : Error := ⟨codes.success, 0⟩
/-- The constant `error::failedOperation` (Error.h). -/
def failedOperation : Error := ⟨codes.failedOperation, 0⟩
/-- The constant `error::aborted` (Error.h). -/
def aborted : Error := ⟨codes.aborted, 0⟩
/-- The constant `error::encoding` (Error.h). -/
def encoding : Error := ⟨codes.encoding, 0⟩
/-- The constant `error::decoding` (Error.h). -/
def decoding : Error := ⟨codes.decoding, 0⟩
/-- The constant `error::invalidFrame` (Error.h). -/
def invalidFrame : Error := ⟨codes.invalidFrame, 0⟩

end error

namespace utils

/-- Embeds `utils::toBigEndian<numBytes, Int>(dest, src)` (Utils.h lines
36-45).  Iteration `i` of the loop writes
`(src >> ((numBytes - 1 - i) * 8)) & 0xff` into `dest[i]`; bytes are modelled
as natural numbers below 256. -/
def toBigEndian (numBytes : Nat) (src : Nat) : List Nat :=
  (List.range numBytes).map fun i => src / 2 ^ ((numBytes - 1 - i) * 8) % 256

/-- Embeds `utils::fromBigEndian<numBytes, Int>(bytes)` (Utils.h lines 47-58).
Iteration `i` adds `bytes[i] << ((numBytes - 1 - i) * 8)` to the accumulator.
For the `numBytes = 4`, `Int = uint32` instantiation used by the library, the
sum of four bytes below 256 is below `2 ^ 32`, so the unsigned C++ addition
never wraps and the plain natural-number sum is exact. -/
def fromBigEndian (numBytes : Nat) (bytes : List Nat) : Nat :=
  (List.range numBytes).foldl
    (fun result i => result + bytes.getD i 0 * 2 ^ ((numBytes - 1 - i) * 8)) 0

end utils

namespace internal

/-- Embeds `internal::Frame` (Frame.h).  `numDataBytes` is the `uint32_t`
constructor argument; `data` is the byte sequence behind the payload
pointer. -/
structure Frame where
  numDataBytes : Nat
  data : List Nat
deriving DecidableEq, Repr

/-- `Frame::HEADER_SIZE` (Frame.h line 39). -/
def Frame.HEADER_SIZE : Nat := 4

/-- Construction of a `Frame` as done at every call site
(`Frame((const uint8_t *) s.c_str(), s.size())`, Stream.h line 64 and
Socket.h line 149): the `size_t` payload length is converted to the
`uint32_t` parameter, i.e. reduced modulo `2 ^ 32`. -/
def mkFrame (payload : List Nat) : Frame :=
  ⟨payload.length % 2 ^ 32, payload⟩

/-- The 4-byte header computed in the `Frame` constructor (Frame.h line 44):
`utils::toBigEndian<4>(header, numDataBytes)`. -/
def Frame.header (f : Frame) : List Nat :=
  utils.toBigEndian 4 f.numDataBytes

/-- Embeds `Frame::getBuffers` (Frame.h lines 55-60) flattened to the byte
sequence the vectored write puts on the wire: the 4 header bytes followed by
`numDataBytes` bytes read from the payload pointer. -/
def Frame.getBuffers (f : Frame) : List Nat :=
  f.header ++ f.data.take f.numDataBytes

/-- Embeds `Frame::getSize` (Frame.h lines 62-65):
`sizeof(header) + numDataBytes`. -/
def Frame.getSize (f : Frame) : Nat :=
  4 + f.numDataBytes

end internal

namespace socket

namespace internal

/-- Embeds `socket::internal::numDataBytesFromBuffer` (Socket.h lines 40-50):
fails (`none`) when fewer than 4 bytes were transferred or when fewer than
`4 + N` bytes were transferred, where `N` is the big-endian length parsed
from the first 4 buffer bytes; otherwise yields `N`. -/
def numDataBytesFromBuffer (buffer : List Nat) (numBytesTransferred : Nat) :
    Option Nat :=
  if numBytesTransferred < 4 then
    none
  else
    let numDataBytes := utils.fromBigEndian 4 buffer
    if numBytesTransferred < 4 + numDataBytes then none else some numDataBytes

end internal

/-- The datagram payload view delivered by `socket::asyncReceiveFrom`
(Socket.h lines 189-205): on a parsable frame, the handler receives
`ConstVectorBuffer{buffer, numDataBytes, Frame::HEADER_SIZE}`, i.e. the
`numDataBytes` bytes of the buffer starting at offset 4; an unparsable frame
yields `none` (the `invalidFrame` path). -/
def decodeReceivedFrame (buffer : List Nat) (numBytesTransferred : Nat) :
    Option (List Nat) :=
  match internal.numDataBytesFromBuffer buffer numBytesTransferred with
  | none => none
  | some numDataBytes => some ((buffer.drop 4).take numDataBytes)

end socket

namespace closeable

/-- Embeds the error computation inside the completion lambda of
`closeable::timedAsyncOperation` (Closeable.h lines 116-126):
start from `error::success`; if the closeable is no longer open, replace it
with `error::aborted`; otherwise, if the boost error code is set (nonzero
value), replace it with `Error{codes::failedOperation, boostCode}`. -/
def timedOperationError (isOpen : Bool) (boostCode : Int) : error.Error :=
  if !isOpen then error.aborted
  else if boostCode != 0 then ⟨error.codes.failedOperation, boostCode⟩
  else error.success

end closeable

namespace stream

/-- Embeds the completion lambda of `stream::asyncWrite` (Stream.h lines
71-80): the handler receives `error::failedOperation` when
`numBytesTransferred < frame->getSize()`, and otherwise the error produced by
`closeable::timedAsyncOperation`. -/
def asyncWriteHandlerError (frameSize : Nat) (err : error.Error)
    (numBytesTransferred : Nat) : error.Error :=
  if numBytesTransferred < frameSize then error.failedOperation else err

end stream

namespace socket

/-- Embeds the completion lambda of `socket::asyncSendTo` (Socket.h lines
157-166), identical in shape to the `stream::asyncWrite` one. -/
def asyncSendToHandlerError (frameSize : Nat) (err : error.Error)
    (numBytesTransferred : Nat) : error.Error :=
  if numBytesTransferred < frameSize then error.failedOperation else err

end socket

/-- Interface of a pending-operation container as consumed by
`AsyncOperationManager` (AsyncOperationManager.h): a container-state type `C`
holding type-erased operation records of type `Op`.  The fields correspond
one-to-one to the member functions of `PendingOperationQueue` and
`PendingOperationReplacer`. -/
structure PendingOperationContainer (Op : Type) (C : Type) where
  shouldCancel : C → Bool
  hasPendingOperation : C → Bool
  pushPendingOperation : C → Op → C
  popPendingOperation : C → C
  getPendingOperation : C → Option Op
  reset : C → C

/-- Embeds `PendingOperationQueue` (AsyncOperationManager.h lines 160-201).
The `std::queue` state is a list with its front at the head; `push` appends
at the back, `pop` removes the front, `front` reads the front. -/
def PendingOperationQueue (Op : Type) :
    PendingOperationContainer Op (List Op) where
  shouldCancel := fun _ => false
  hasPendingOperation := fun operations => !operations.isEmpty
  pushPendingOperation := fun operations op => operations ++ [op]
  popPendingOperation := fun operations => operations.tail
  getPendingOperation := fun operations => operations.head?
  reset := fun _ => []

/-- Embeds `PendingOperationReplacer` (AsyncOperationManager.h lines
203-243): at most one stored record, replaced by each push. -/
def PendingOperationReplacer (Op : Type) :
    PendingOperationContainer Op (Option Op) where
  shouldCancel := fun _ => true
  hasPendingOperation := fun operation => operation.isSome
  pushPendingOperation := fun _ op => some op
  popPendingOperation := fun _ => none
  getPendingOperation := fun operation => operation
  reset := fun _ => none

/-- Events emitted by the manager transitions: a synchronous invocation of an
operation record, or a run of the configured `cancelingOperation`. -/
inductive ManagerEvent (Op : Type) where
  | invoke (op : Op)
  | cancelingOperation
deriving DecidableEq, Repr

/-- The mutable state of `AsyncOperationManager<PendingOperationContainer>`
(AsyncOperationManager.h lines 151-157): the `running` and `canceled` flags
and the pending-operation container state. -/
structure AsyncOperationManager (C : Type) where
  running : Bool
  canceled : Bool
  pendingOperations : C
deriving DecidableEq, Repr

/-- Embeds `AsyncOperationManager::startOperation` (AsyncOperationManager.h
lines 67-83) as a transition returning the new state together with the list
of invocations performed under the lock: if not running, set `running`,
invoke the operation synchronously; otherwise invoke `cancelingOperation`
when the container's `shouldCancel()` holds and push the new record. -/
def startOperation {Op C : Type} (P : PendingOperationContainer Op C)
    (s : AsyncOperationManager C) (op : Op) :
    AsyncOperationManager C × List (ManagerEvent Op) :=
  if !s.running then
    ({ s with running := true }, [ManagerEvent.invoke op])
  else
    ({ s with
        pendingOperations := P.pushPendingOperation s.pendingOperations op },
     if P.shouldCancel s.pendingOperations then
       [ManagerEvent.cancelingOperation]
     else [])

/-- Embeds `AsyncOperationManager::finishOperation` (AsyncOperationManager.h
lines 85-100): clear `canceled`; if no pending operation, clear `running`;
otherwise pop the front record and invoke it.  The `none` branch of the
match is unreachable because it is guarded by `hasPendingOperation`. -/
def finishOperation {Op C : Type} (P : PendingOperationContainer Op C)
    (s : AsyncOperationManager C) :
    AsyncOperationManager C × List (ManagerEvent Op) :=
  let s1 := { s with canceled := false }
  if !P.hasPendingOperation s1.pendingOperations then
    ({ s1 with running := false }, [])
  else
    match P.getPendingOperation s1.pendingOperations with
    | some pendingOperation =>
        ({ s1 with
            pendingOperations := P.popPendingOperation s1.pendingOperations },
         [ManagerEvent.invoke pendingOperation])
    | none =>
        ({ s1 with
            pendingOperations := P.popPendingOperation s1.pendingOperations },
         [])

/-- Embeds `AsyncOperationManager::cancelOperation` (AsyncOperationManager.h
lines 102-108): latch `canceled`, run the canceling operation, reset the
container. -/
def cancelOperation {Op C : Type} (P : PendingOperationContainer Op C)
    (s : AsyncOperationManager C) :
    AsyncOperationManager C × List (ManagerEvent Op) :=
  ({ s with canceled := true, pendingOperations := P.reset s.pendingOperations },
   [ManagerEvent.cancelingOperation])

/-- Embeds `AsyncOperationManager::isCanceled` (AsyncOperationManager.h lines
110-113). -/
def isCanceled {C : Type} (s : AsyncOperationManager C) : Bool :=
  s.canceled

/-- Successive `finishOperation` calls on a Queue-policy manager: performs
`n` calls and concatenates the emitted events (the dispatched records). -/
def drainEvents {Op : Type} (s : AsyncOperationManager (List Op)) :
    Nat → List (ManagerEvent Op)
  | 0 => []
  | n + 1 =>
      let r := finishOperation (PendingOperationQueue Op) s
      r.2 ++ drainEvents r.1 n

/-- The observable steps a completion handler can take, in the order they
appear in its body. -/
inductive CompletionAction where
  | closeSocket
  | finishNotify
  | userHandler
  | nextStage
deriving DecidableEq, Repr

/-- Embeds the `async_wait` completion lambda of
`Timer::startTimeoutOperation` (Timer.h lines 88-96), as the sequence of
actions it performs given the boost wait error (nonzero when the wait was
cancelled) and the manager's `isCanceled()` observation: early return when
either holds, else `notifier.notify()` then the user handler. -/
def timerTimeoutCompletionActions (waitError canceled : Bool) :
    List CompletionAction :=
  if waitError || canceled then []
  else [CompletionAction.finishNotify, CompletionAction.userHandler]

/-- Embeds the receive-completion lambda of
`DatagramReceiver::asyncReceiveOperation` (DatagramReceiver.h lines 94-103):
early return when `operationManager.isCanceled()`, else
`state->finishedNotifier.notify()` then `state->handler(...)`.  The received
error is passed through to the handler and does not affect the control
flow. -/
def datagramReceiverCompletionActions (canceled : Bool) :
    List CompletionAction :=
  if canceled then []
  else [CompletionAction.finishNotify, CompletionAction.userHandler]

/-- Embeds the send-completion lambda of
`DatagramSender::asyncSendOperation` (DatagramSender.h lines 119-125):
unconditionally `state->finishedNotifier.notify()` then
`state->handler(error)`.  The lambda never consults
`operationManager.isCanceled()`; the parameter records the manager
observation that would have been available. -/
def datagramSenderCompletionActions (_canceled : Bool) :
    List CompletionAction :=
  [CompletionAction.finishNotify, CompletionAction.userHandler]

/-- Embeds `ServiceClient::connectHandler` (ServiceClient.h lines 168-189):
on error, `socket.close()`, `finishedNotifier.notify()`, then the user
handler; otherwise proceed to the write stage.  It never consults
`isCanceled()`. -/
def serviceClientConnectHandlerActions (hasError : Bool) :
    List CompletionAction :=
  if hasError then
    [CompletionAction.closeSocket, CompletionAction.finishNotify,
     CompletionAction.userHandler]
  else [CompletionAction.nextStage]

/-- Embeds `ServiceClient::writeHandler` (ServiceClient.h lines 191-216):
on error, `socket.close()`, `finishedNotifier.notify()`, then the user
handler; otherwise proceed to the receive stage.  It never consults
`isCanceled()`. -/
def serviceClientWriteHandlerActions (hasError : Bool) :
    List CompletionAction :=
  if hasError then
    [CompletionAction.closeSocket, CompletionAction.finishNotify,
     CompletionAction.userHandler]
  else [CompletionAction.nextStage]

/-- Embeds the receive-completion lambda installed by
`ServiceClient::writeHandler` (ServiceClient.h lines 208-215):
unconditionally `socket.close()`, `finishedNotifier.notify()`, then the user
handler, whatever the error and whatever the manager's canceled flag (the
parameters record both observations; neither is consulted). -/
def serviceClientReceiveHandlerActions (_hasError _canceled : Bool) :
    List CompletionAction :=
  [CompletionAction.closeSocket, CompletionAction.finishNotify,
   CompletionAction.userHandler]

/-- Whether `finishNotify` occurs before `userHandler` in an action list
(trivially true when the user handler never runs). -/
def finishBeforeHandler (actions : List CompletionAction) : Bool :=
  !(actions.contains CompletionAction.userHandler)
    || actions.indexOf CompletionAction.finishNotify
        < actions.indexOf CompletionAction.userHandler

/-- Effects of `ServiceClient::asyncCall` visible to the caller: a task
posted to the executor that will invoke `handler(err, ResponseMessage{})`,
or a manager transition event. -/
inductive ClientCallEffect (Op : Type) where
  | postedHandlerTask (err : error.Error)
  | managerEvent (e : ManagerEvent Op)
deriving DecidableEq, Repr

/-- Embeds `ServiceClient::asyncCall` together with `ServiceClient::encode`
(ServiceClient.h lines 58-71 and 226-240): when encoding fails, `encode`
posts `handler(error::encoding, noResponse)` on the executor and returns
`nullptr`, and `asyncCall` returns immediately without touching the
operation manager; otherwise the call operation record is submitted through
`operationManager.startOperation`. -/
def asyncCall {Op : Type} (encodeSucceeds : Bool)
    (s : AsyncOperationManager (List Op)) (op : Op) :
    AsyncOperationManager (List Op) × List (ClientCallEffect Op) :=
  if !encodeSucceeds then
    (s, [ClientCallEffect.postedHandlerTask error.encoding])
  else
    let r := startOperation (PendingOperationQueue Op) s op
    (r.1, r.2.map ClientCallEffect.managerEvent)

/-- Embeds the deadline computation of `Timer::nextPeriod` (Timer.h line
126): `timer.expires_at(timer.expires_at() + state->duration)` — the new
deadline is the previous deadline plus the interval; the current wall-clock
time (second parameter) is not consulted. -/
def nextPeriodDeadline (prevDeadline _now interval : Int) : Int :=
  prevDeadline + interval

/-- The deadline of the k-th firing of a periodic timer chain started by
`Timer::startPeriodicTimeoutOperation` (Timer.h lines 99-113): the first
deadline is `expires_from_now(interval)` at start time `start`; each later
deadline comes from `nextPeriodDeadline` applied to the previous deadline,
whatever the (jittered) current time `now k` happens to be when the k-th
handler rearms the timer. -/
def periodicDeadline (start interval : Int) (now : Nat → Int) : Nat → Int
  | 0 => start + interval
  | k + 1 => nextPeriodDeadline (periodicDeadline start interval now k) (now k) interval

/-- Embeds the guard of the periodic `async_wait` completion lambda
(Timer.h lines 104-112 and 127-135): the user handler runs only when the
wait completed without error and the manager is not canceled. -/
def periodicWaitHandlerRuns (waitError canceled : Bool) : Bool :=
  !(waitError || canceled)

/-- Embeds the guard of `Timer::nextPeriod` (Timer.h lines 121-125): the
chain rearms the timer only when the manager is not canceled. -/
def nextPeriodRearms (canceled : Bool) : Bool :=
  !canceled

/-! Helper lemmas. -/

/-- `toBigEndian` at the `numBytes = 4` instantiation, written out. -/
lemma toBigEndian_four (m : Nat) :
    utils.toBigEndian 4 m
      = [m / 2 ^ 24 % 256, m / 2 ^ 16 % 256, m / 2 ^ 8 % 256, m % 256] := by
  simp [utils.toBigEndian, List.range_succ]

/-- `fromBigEndian` at the `numBytes = 4` instantiation, written out. -/
lemma fromBigEndian_four (bytes : List Nat) :
    utils.fromBigEndian 4 bytes
      = bytes.getD 0 0 * 2 ^ 24 + bytes.getD 1 0 * 2 ^ 16
          + bytes.getD 2 0 * 2 ^ 8 + bytes.getD 3 0 := by
  simp [utils.fromBigEndian, List.range_succ]

/-- Big-endian round trip for a value fitting in 32 bits. -/
lemma be_roundtrip (n : Nat) (h : n < 2 ^ 32) :
    utils.fromBigEndian 4 (utils.toBigEndian 4 n) = n := by
  rw [toBigEndian_four, fromBigEndian_four]
  simp only [List.getD_cons_zero, List.getD_cons_succ]
  omega

/-- The wire bytes of an encoded frame, written out. -/
lemma getBuffers_eq (p : List Nat) (h2 : p.length < 2 ^ 32) :
    (internal.mkFrame p).getBuffers
      = p.length / 2 ^ 24 % 256 :: p.length / 2 ^ 16 % 256
          :: p.length / 2 ^ 8 % 256 :: p.length % 256 :: p := by
  simp [internal.mkFrame, internal.Frame.getBuffers, internal.Frame.header,
    toBigEndian_four, List.take_length]
  omega

/-- Decoding an encoded frame recovers the payload. -/
lemma decode_encode (p : List Nat) (h2 : p.length < 2 ^ 32) :
    socket.decodeReceivedFrame (internal.mkFrame p).getBuffers
        (internal.mkFrame p).getBuffers.length = some p := by
  rw [getBuffers_eq p h2]
  have hfrom :
      utils.fromBigEndian 4
          (p.length / 2 ^ 24 % 256 :: p.length / 2 ^ 16 % 256
            :: p.length / 2 ^ 8 % 256 :: p.length % 256 :: p) = p.length := by
    rw [fromBigEndian_four]
    simp only [List.getD_cons_zero, List.getD_cons_succ]
    omega
  have h4 : ¬(p.length + 1 + 1 + 1 + 1 < 4) := by omega
  have h5 : ¬(p.length + 1 + 1 + 1 + 1 < 4 + p.length) := by omega
  simp only [socket.decodeReceivedFrame,
    socket.internal.numDataBytesFromBuffer, List.length_cons, hfrom]
  rw [if_neg h4, if_neg h5]
  simp [List.take_length]

/-- A `startOperation` on a running Queue-policy manager only appends the
record to the pending list. -/
lemma startOperation_running_queue {Op : Type}
    (s : AsyncOperationManager (List Op)) (op : Op) (h : s.running = true) :
    startOperation (PendingOperationQueue Op) s op
      = ({ s with pendingOperations := s.pendingOperations ++ [op] }, []) := by
  simp [startOperation, h, PendingOperationQueue]

/-- Folding a sequence of `startOperation` calls over a running Queue-policy
manager appends the records in call order. -/
lemma pushAll_queue {Op : Type} (ops : List Op) (pending0 : List Op)
    (c : Bool) :
    ops.foldl
        (fun t op => (startOperation (PendingOperationQueue Op) t op).1)
        ⟨true, c, pending0⟩
      = ⟨true, c, pending0 ++ ops⟩ := by
  induction ops generalizing pending0 with
  | nil => simp
  | cons o os ih =>
      simp only [List.foldl_cons]
      rw [startOperation_running_queue _ _ rfl]
      simpa using ih (pending0 ++ [o])

/-- Draining a Queue-policy manager dispatches the pending records front to
back, one per `finishOperation` call. -/
lemma drainEvents_queue {Op : Type} (pending : List Op) (r c : Bool) :
    drainEvents ⟨r, c, pending⟩ pending.length
      = pending.map ManagerEvent.invoke := by
  induction pending generalizing r c with
  | nil => rfl
  | cons p rest ih =>
      simp only [List.length_cons, drainEvents, finishOperation,
        PendingOperationQueue]
      simpa using ih r false

/-! Claim theorems. -/

/-- Claim C1: `AsyncOperationManager::startOperation` — when the manager is
not running it sets `running` to true and invokes the given operation
synchronously, leaving the pending container untouched; when it is running
it invokes the configured `cancelingOperation` exactly when the container's
`shouldCancel` is true and pushes the new record, leaving `running` true. -/
theorem startOperation_dispatch_spec : ∀ {Op C : Type}
    (P : PendingOperationContainer Op C) (s : AsyncOperationManager C)
    (op : Op),
    startOperation P s op
      = (if s.running = false then
          ({ s with running := true }, [ManagerEvent.invoke op])
        else
          ({ s with
              pendingOperations :=
                P.pushPendingOperation s.pendingOperations op },
           if P.shouldCancel s.pendingOperations then
             [ManagerEvent.cancelingOperation]
           else []))
    ∧ (startOperation P s op).1.running = true := by
  intro Op C P s op
  cases hr : s.running <;> simp [startOperation, hr]

/-- Claim C2: under `PendingOperationQueue`, records queued by
`startOperation` calls made while an operation is running are dispatched by
successive `finishOperation` calls in exactly FIFO push order, each record
exactly once. -/
theorem queue_policy_fifo_dispatch : ∀ {Op : Type}
    (pending0 ops : List Op) (c : Bool),
    (ops.foldl
        (fun t op => (startOperation (PendingOperationQueue Op) t op).1)
        ⟨true, c, pending0⟩).pendingOperations
      = pending0 ++ ops
    ∧ drainEvents
        (ops.foldl
          (fun t op => (startOperation (PendingOperationQueue Op) t op).1)
          ⟨true, c, pending0⟩)
        (pending0 ++ ops).length
      = (pending0 ++ ops).map ManagerEvent.invoke := by
  intro Op pending0 ops c
  rw [pushAll_queue ops pending0 c]
  exact ⟨rfl, drainEvents_queue (pending0 ++ ops) true c⟩

/-- Claim C3: the error delivered by `closeable::timedAsyncOperation` is
`aborted` iff the closeable handle is no longer open at completion time;
with an open handle it is `failedOperation` carrying the underlying boost
code when that code is set, and `success` otherwise. -/
theorem timed_operation_error_mapping : ∀ (isOpen : Bool) (boostCode : Int),
    ((closeable.timedOperationError isOpen boostCode).asionetCode
        = error.codes.aborted
      ↔ isOpen = false)
    ∧ closeable.timedOperationError false boostCode = error.aborted
    ∧ closeable.timedOperationError true boostCode
      = (if boostCode = 0 then error.success
         else ⟨error.codes.failedOperation, boostCode⟩) := by
  intro isOpen boostCode
  rcases eq_or_ne boostCode 0 with h | h <;>
    cases isOpen <;>
      simp [closeable.timedOperationError, error.aborted, error.success,
        error.failedOperation, error.codes.aborted, error.codes.success,
        error.codes.failedOperation, h]

/-- Claim C4 counterexample: the send-completion path of
`DatagramSender` invokes the user handler even when the manager observed
`canceled == true`, contradicting the claim that the callback is silently
dropped for every component operation. -/
theorem canceled_sender_still_invokes_handler :
    CompletionAction.userHandler ∈ datagramSenderCompletionActions true := by
  decide

/-- Claim C4 (amended): only the datagram-receive completion (and the timer
completions) observe `canceled == true` via the manager and silently drop
the user-facing callback; the datagram-send completion and the service-call
stage completions invoke the user handler regardless of the canceled
flag. -/
theorem cancellation_visibility_amended : ∀ (canceled hasError : Bool),
    datagramReceiverCompletionActions true = []
    ∧ timerTimeoutCompletionActions false true = []
    ∧ CompletionAction.userHandler ∈ datagramReceiverCompletionActions false
    ∧ CompletionAction.userHandler ∈ datagramSenderCompletionActions canceled
    ∧ CompletionAction.userHandler
        ∈ serviceClientReceiveHandlerActions hasError canceled
    ∧ CompletionAction.userHandler ∈ serviceClientConnectHandlerActions true
    ∧ CompletionAction.userHandler ∈ serviceClientWriteHandlerActions true := by
  decide

/-- Claim C5: decoding the frame produced by encoding a payload `p` with
`len(p) ≤ maxMessageSize` and `len(p) < 2 ^ 32` yields exactly `p`; the
4-byte big-endian round trip holds for every value below `2 ^ 32`; and the
encoded frame's total size is `4 + len(p)`. -/
theorem frame_roundtrip (p : List Nat) (maxMessageSize n : Nat)
    (h1 : p.length ≤ maxMessageSize) (h2 : p.length < 2 ^ 32)
    (h3 : n < 2 ^ 32) :
    socket.decodeReceivedFrame (internal.mkFrame p).getBuffers
        (internal.mkFrame p).getBuffers.length = some p
    ∧ (internal.mkFrame p).getSize = 4 + p.length
    ∧ (internal.mkFrame p).getBuffers.length = 4 + p.length
    ∧ utils.fromBigEndian 4 (utils.toBigEndian 4 n) = n := by
  refine ⟨decode_encode p h2, ?_, ?_, be_roundtrip n h3⟩
  · simp [internal.mkFrame, internal.Frame.getSize]
    omega
  · rw [getBuffers_eq p h2]
    simp only [List.length_cons]
    omega

/-- Witness for `frame_roundtrip` at a concrete payload and length value. -/
theorem frame_roundtrip_witness :
    ([10, 20, 30] : List Nat).length ≤ 512
    ∧ ([10, 20, 30] : List Nat).length < 2 ^ 32
    ∧ (305419896 : Nat) < 2 ^ 32
    ∧ (socket.decodeReceivedFrame (internal.mkFrame [10, 20, 30]).getBuffers
          (internal.mkFrame [10, 20, 30]).getBuffers.length = some [10, 20, 30]
        ∧ (internal.mkFrame [10, 20, 30]).getSize = 4 + ([10, 20, 30] : List Nat).length
        ∧ (internal.mkFrame [10, 20, 30]).getBuffers.length
            = 4 + ([10, 20, 30] : List Nat).length
        ∧ utils.fromBigEndian 4 (utils.toBigEndian 4 305419896) = 305419896) :=
  ⟨by decide, by norm_num, by norm_num,
    frame_roundtrip [10, 20, 30] 512 305419896 (by decide) (by norm_num)
      (by norm_num)⟩

/-- Claim C6 counterexample: a framed write that transferred the whole frame
is not always reported as `success` — when the closeable handle was closed
before the completion ran (the timeout race), the handler receives
`aborted`. -/
theorem full_write_not_always_success :
    stream.asyncWriteHandlerError 7 (closeable.timedOperationError false 0) 7
        = error.aborted
    ∧ error.aborted ≠ error.success := by
  decide

/-- Claim C6 (amended): for both `stream::asyncWrite` and
`socket::asyncSendTo`, a transfer shorter than the frame size is reported as
`failedOperation`; otherwise the handler receives the error computed by the
timed-operation wrapper, which is `success` precisely when the handle is
still open and the transport reported no error. -/
theorem framed_write_completion_error : ∀ (frameSize : Nat)
    (err : error.Error) (n : Nat),
    stream.asyncWriteHandlerError frameSize err n
      = (if n < frameSize then error.failedOperation else err)
    ∧ socket.asyncSendToHandlerError frameSize err n
      = (if n < frameSize then error.failedOperation else err)
    ∧ stream.asyncWriteHandlerError frameSize
        (closeable.timedOperationError true 0) n
      = (if n < frameSize then error.failedOperation else error.success)
    ∧ socket.asyncSendToHandlerError frameSize
        (closeable.timedOperationError true 0) n
      = (if n < frameSize then error.failedOperation else error.success) := by
  intro frameSize err n
  refine ⟨rfl, rfl, ?_, ?_⟩ <;>
    simp [stream.asyncWriteHandlerError, socket.asyncSendToHandlerError,
      closeable.timedOperationError]

/-- Claim C7: when request encoding fails, `ServiceClient::asyncCall` posts
a task invoking `handler(encoding, default response)` on the executor,
returns without submitting anything to the operation manager, and leaves the
manager state unchanged; in particular the handler is never invoked
synchronously. -/
theorem encode_failure_posts_handler : ∀ {Op : Type}
    (s : AsyncOperationManager (List Op)) (op : Op),
    asyncCall false s op
      = (s, [ClientCallEffect.postedHandlerTask error.encoding])
    ∧ ∀ ev : ManagerEvent Op,
        ClientCallEffect.managerEvent ev ∉ (asyncCall false s op).2 := by
  intro Op s op
  exact ⟨rfl, by simp [asyncCall]⟩

/-- Claim C8: for a periodic timer, the deadline of firing `k + 1` equals
the deadline of firing `k` plus the interval (independent of the current
time at rearm, hence drift-free: the k-th deadline is
`start + (k + 1) * interval`), and after `cancel()` the manager's canceled
flag is latched so that a chain completion neither runs the user handler nor
rearms the timer. -/
theorem periodic_timer_deadlines_and_cancel : ∀ (start interval : Int)
    (now now2 : Nat → Int) (k : Nat) {Op : Type}
    (s : AsyncOperationManager (Option Op)) (waitError : Bool),
    periodicDeadline start interval now (k + 1)
      = periodicDeadline start interval now k + interval
    ∧ periodicDeadline start interval now k = start + (k + 1) * interval
    ∧ periodicDeadline start interval now k
      = periodicDeadline start interval now2 k
    ∧ (cancelOperation (PendingOperationReplacer Op) s).1.canceled = true
    ∧ periodicWaitHandlerRuns waitError true = false
    ∧ nextPeriodRearms true = false := by
  intro start interval now now2 k Op s waitError
  have closed : ∀ (nw : Nat → Int) (j : Nat),
      periodicDeadline start interval nw j = start + (j + 1) * interval := by
    intro nw j
    induction j with
    | zero => simp [periodicDeadline]
    | succ i ih =>
        simp only [periodicDeadline, nextPeriodDeadline, ih]
        push_cast
        ring
  refine ⟨rfl, closed now k, ?_, rfl, ?_, rfl⟩
  · rw [closed now k, closed now2 k]
  · simp [periodicWaitHandlerRuns]

/-- Claim C9: in every completion path that invokes a user handler (one-shot
timer expiry, datagram receive, datagram send, each stage exit of a service
call), the finished-operation notification precedes the user handler; the
notification runs `finishOperation`, which dispatches the next pending
record as part of that very call, and leaves an idle manager in which a
fresh `startOperation` invokes its operation directly. -/
theorem finish_notification_precedes_handler : ∀
    (waitError canceled hasError : Bool) {Op : Type} (c : Bool) (op p : Op)
    (rest : List Op),
    finishBeforeHandler (timerTimeoutCompletionActions waitError canceled)
        = true
    ∧ finishBeforeHandler (datagramReceiverCompletionActions canceled) = true
    ∧ finishBeforeHandler (datagramSenderCompletionActions canceled) = true
    ∧ finishBeforeHandler (serviceClientConnectHandlerActions hasError) = true
    ∧ finishBeforeHandler (serviceClientWriteHandlerActions hasError) = true
    ∧ finishBeforeHandler
        (serviceClientReceiveHandlerActions hasError canceled) = true
    ∧ finishOperation (PendingOperationQueue Op) ⟨true, c, p :: rest⟩
      = (⟨true, false, rest⟩, [ManagerEvent.invoke p])
    ∧ startOperation (PendingOperationQueue Op)
        (finishOperation (PendingOperationQueue Op)
          ⟨true, c, ([] : List Op)⟩).1 op
      = (⟨true, false, []⟩, [ManagerEvent.invoke op]) := by
  intro waitError canceled hasError Op c op p rest
  refine ⟨?_, ?_, ?_, ?_, ?_, ?_, ?_, ?_⟩
  · revert waitError canceled; decide
  · revert canceled; decide
  · revert canceled; decide
  · revert hasError; decide
  · revert hasError; decide
  · revert hasError canceled; decide
  · simp [finishOperation, PendingOperationQueue]
  · simp [finishOperation, startOperation, PendingOperationQueue]

/-- Claim C10: `Error::operator==` compares only the `asionetCode` kinds
(the attached boost transport code is ignored, also by `operator!=`), an
`Error` converts to true iff its `asionetCode` is not `success` (0), and an
`aborted` error with a transport code attached compares equal to the plain
`aborted` constant. -/
theorem error_equality_and_truthiness : ∀ (lhs rhs : error.Error) (c : Int),
    (error.Error.beq lhs rhs = true ↔ lhs.asionetCode = rhs.asionetCode)
    ∧ error.Error.bne lhs rhs = !(error.Error.beq lhs rhs)
    ∧ (error.Error.toBool lhs = true
        ↔ lhs.asionetCode ≠ error.codes.success)
    ∧ error.Error.beq ⟨error.codes.aborted, c⟩ error.aborted = true := by
  intro lhs rhs c
  refine ⟨?_, rfl, ?_, ?_⟩
  · simp [error.Error.beq]
  · simp [error.Error.toBool, error.codes.success]
  · simp [error.Error.beq, error.aborted, error.codes.aborted]

end asionet
